import Mathlib

/-!
Verification development for the RisingWave connector-node python test
harness (`java/connector-node/python-client/integration_tests.py`).

The harness builds an ordered list of `SinkStreamRequest` protocol messages
from a JSON or binary fixture, drives them through a bidirectional stream,
drains one response per request, and (for the jdbc scenario) compares the
external store's rows against rows derived from the fixture.

This file shallowly embeds that code: the request-list constructions of
`test_sink_json` and `test_sink_stream_chunk`, the response drain loop they
share, and the comparison logic of `validate_jdbc_sink`.  Python loops
become structural recursions whose loop variables (`epoch`, `batch_id`,
row/column indices) are explicit parameters; operations that can raise
(dict key lookups, tuple indexing, iterator exhaustion) return `Option` or
are modelled as explicit events.
-/

/-- A scalar JSON value as parsed by `json.load`.  Python booleans compare
equal to the integers 0 and 1; where the harness relies on that (the
`op_overlap != False` test) booleans are modelled by their integer value. -/
inductive JsonScalar where
  | null : JsonScalar
  | bool (b : Bool) : JsonScalar
  | int (n : Int) : JsonScalar
  | str (s : String) : JsonScalar
deriving DecidableEq, Repr

/-- A JSON value of the shapes the harness's fixtures use: a scalar, an
array of scalars, or a flat object (Python dict, which preserves key
insertion order) mapping strings to scalars. -/
inductive JsonVal where
  | scalar (v : JsonScalar) : JsonVal
  | arr (xs : List JsonScalar) : JsonVal
  | obj (kvs : List (String × JsonScalar)) : JsonVal
deriving DecidableEq, Repr

/-- A fixture row: a parsed JSON object, kept as the ordered key/value list
of the Python dict (`validate_jdbc_sink` reads `row.values()` positionally,
so insertion order matters). -/
structure Row where
  kvs : List (String × JsonVal)
deriving DecidableEq, Repr

/-- Python `row[k]` on a dict: the value stored under key `k`, `none`
standing for a raised `KeyError`. -/
def Row.lookupKey (r : Row) (k : String) : Option JsonVal :=
  r.kvs.lookup k

/-- Python `list(row.values())`: the dict's values in insertion order. -/
def Row.values (r : Row) : List JsonVal :=
  r.kvs.map Prod.snd

/-- Python `repr` of a scalar, as it appears inside `str` of a container:
`None`/`True`/`False`, decimal integers, and strings in single quotes. -/
def pyReprScalar : JsonScalar → String
  | .null => "None"
  | .bool true => "True"
  | .bool false => "False"
  | .int n => toString n
  | .str s => "\x27" ++ s ++ "\x27"

/-- Python `str`/`repr` of a container value: lists in square brackets and
dicts in braces, elements separated by a comma and a space, dict keys in
single quotes followed by a colon and a space. -/
def pyReprVal : JsonVal → String
  | .scalar v => pyReprScalar v
  | .arr xs => "[" ++ String.intercalate ", " (xs.map pyReprScalar) ++ "]"
  | .obj kvs =>
      "\x7b" ++
        String.intercalate ", "
          (kvs.map (fun kv => "\x27" ++ kv.1 ++ "\x27: " ++ pyReprScalar kv.2)) ++
      "\x7d"

/-- Python `str(v)`: a string renders as itself (no quotes); every other
value renders as its `repr`. -/
def pyStr : JsonVal → String
  | .scalar (.str s) => s
  | v => pyReprVal v

/-- Model of `json.dumps` on a scalar (default separators): JSON literals
`null`/`true`/`false`, decimal integers, strings in double quotes.  The
harness never calls this; it exists to contrast with `pyStr`. -/
def jsonDumpsScalar : JsonScalar → String
  | .null => "null"
  | .bool true => "true"
  | .bool false => "false"
  | .int n => toString n
  | .str s => "\"" ++ s ++ "\""

/-- Model of `json.dumps` on a container value (default separators).  Used
only to show that `str(row['line'])` is not JSON re-serialization. -/
def jsonDumps : JsonVal → String
  | .scalar v => jsonDumpsScalar v
  | .arr xs => "[" ++ String.intercalate ", " (xs.map jsonDumpsScalar) ++ "]"
  | .obj kvs =>
      "\x7b" ++
        String.intercalate ", "
          (kvs.map (fun kv => "\"" ++ kv.1 ++ "\": " ++ jsonDumpsScalar kv.2)) ++
      "\x7d"

/-- One column of `connector_service_pb2.TableSchema`: a name and the
numeric `type_name` of its `data_pb2.DataType`. -/
structure Column where
  name : String
  data_type : Nat
deriving DecidableEq, Repr

/-- `connector_service_pb2.TableSchema`. -/
structure TableSchema where
  columns : List Column
  pk_indices : List Nat
deriving DecidableEq, Repr

/-- `make_mock_schema()`: columns `id` (type 2) and `name` (type 7),
primary key index 0. -/
def make_mock_schema : TableSchema :=
  ⟨[⟨"id", 2⟩, ⟨"name", 7⟩], [0]⟩

/-- `make_mock_schema_stream_chunk()`: columns `v1`..`v7` with type names
1..7, primary key index 0. -/
def make_mock_schema_stream_chunk : TableSchema :=
  ⟨[⟨"v1", 1⟩, ⟨"v2", 2⟩, ⟨"v3", 3⟩, ⟨"v4", 4⟩, ⟨"v5", 5⟩, ⟨"v6", 6⟩, ⟨"v7", 7⟩], [0]⟩

/-- `connector_service_pb2.SinkConfig`. -/
structure SinkConfig where
  connector_type : String
  properties : List (String × String)
  table_schema : TableSchema
deriving DecidableEq, Repr

/-- `connector_service_pb2.SinkPayloadFormat`. -/
inductive SinkPayloadFormat where
  | JSON : SinkPayloadFormat
  | STREAM_CHUNK : SinkPayloadFormat
deriving DecidableEq, Repr

/-- `SinkStreamRequest.WriteBatch.JsonPayload.RowOp`: an operation tag and
the stringified row. -/
structure RowOp where
  op_type : Int
  line : String
deriving DecidableEq, Repr

/-- The payload of a `WriteBatch`: the proto `oneof` of a JSON row-op list
and an opaque binary stream chunk (bytes modelled as a list of naturals). -/
inductive WritePayload where
  | json_payload (row_ops : List RowOp) : WritePayload
  | stream_chunk_payload (binary_data : List Nat) : WritePayload
deriving DecidableEq, Repr

/-- `connector_service_pb2.SinkStreamRequest`: the mutually exclusive
`start` / `start_epoch` / `write` / `sync` sub-messages. -/
inductive SinkStreamRequest where
  | start (format : SinkPayloadFormat) (sink_config : SinkConfig) : SinkStreamRequest
  | start_epoch (epoch : Nat) : SinkStreamRequest
  | write (batch_id : Nat) (epoch : Nat) (payload : WritePayload) : SinkStreamRequest
  | sync (epoch : Nat) : SinkStreamRequest
deriving DecidableEq, Repr

/-- The op_type chosen for one row in `test_sink_json`:
`op_overlap if op_overlap != False else row['op_type']`.  `op_overlap` is
an integer (Python `False` compares equal to the integer 0, so the guard
`op_overlap != False` is `op_overlap ≠ 0`); the conditional expression
only evaluates `row['op_type']` when the guard fails.  `none` stands for a
raised `KeyError` or a value the proto int field would reject. -/
def opTypeOf (op_overlap : Int) (r : Row) : Option Int :=
  if op_overlap ≠ 0 then some op_overlap
  else match r.lookupKey "op_type" with
    | some (JsonVal.scalar (JsonScalar.int n)) => some n
    | _ => none

/-- The RowOp built for one fixture row in `test_sink_json`: the chosen
op_type together with `line = str(row['line'])`. -/
def rowOpOf (op_overlap : Int) (r : Row) : Option RowOp :=
  match opTypeOf op_overlap r, r.lookupKey "line" with
  | some t, some l => some ⟨t, pyStr l⟩
  | _, _ => none

/-- The inner `for row in batch` loop of `test_sink_json`: one RowOp per
row, in row order. -/
def encodeRows (op_overlap : Int) : List Row → Option (List RowOp)
  | [] => some []
  | r :: rs =>
    match rowOpOf op_overlap r, encodeRows op_overlap rs with
    | some op, some ops => some (op :: ops)
    | _, _ => none

/-- The `for batch in sink_input` loop of `test_sink_json`: for each batch
it appends `StartEpoch(epoch)`, `Write(batch_id, epoch, json_payload)` and
`Sync(epoch)`, then increments both counters.  The loop's mutable `epoch`
and `batch_id` are the recursion's parameters. -/
def jsonBatchesToRequests (op_overlap : Int) (epoch batch_id : Nat) :
    List (List Row) → Option (List SinkStreamRequest)
  | [] => some []
  | batch :: rest =>
    match encodeRows op_overlap batch, jsonBatchesToRequests op_overlap (epoch + 1) (batch_id + 1) rest with
    | some ops, some tail =>
        some (SinkStreamRequest.start_epoch epoch ::
              SinkStreamRequest.write batch_id epoch (WritePayload.json_payload ops) ::
              SinkStreamRequest.sync epoch :: tail)
    | _, _ => none

/-- The request list built by `test_sink_json(type, prop, input_file,
op_overlap)` from the parsed fixture: the `Start` message (format JSON,
mock schema) followed by the per-batch triples, with `epoch` starting at 0
and `batch_id` at 1. -/
def test_sink_json_requests (ty : String) (prop : List (String × String))
    (sink_input : List (List Row)) (op_overlap : Int) :
    Option (List SinkStreamRequest) :=
  match jsonBatchesToRequests op_overlap 0 1 sink_input with
  | some tail =>
      some (SinkStreamRequest.start SinkPayloadFormat.JSON
              ⟨ty, prop, make_mock_schema⟩ :: tail)
  | none => none

/-- The request list built by `test_sink_stream_chunk(type, prop,
input_file, table_schema)`: the `Start` message (format STREAM_CHUNK)
followed by a single `StartEpoch(0)` / `Write(1, 0, chunk)` / `Sync(0)`
triple whose chunk wraps the fixture bytes; the trailing
`epoch += 1; batch_id += 1` of the source has no further effect. -/
def test_sink_stream_chunk_requests (ty : String) (prop : List (String × String))
    (table_schema : TableSchema) (sink_input : List Nat) : List SinkStreamRequest :=
  let request_list := [SinkStreamRequest.start SinkPayloadFormat.STREAM_CHUNK
                        ⟨ty, prop, table_schema⟩]
  let epoch := 0
  let batch_id := 1
  let request_list := request_list ++ [SinkStreamRequest.start_epoch epoch]
  let request_list := request_list ++
    [SinkStreamRequest.write batch_id epoch (WritePayload.stream_chunk_payload sink_input)]
  let request_list := request_list ++ [SinkStreamRequest.sync epoch]
  request_list

/-- What one `next(response_iter)` call does, seen from the drain loop:
either it yields a response, or it raises (a `StopIteration` when the
response stream is exhausted, or any transport/server error). -/
inductive RespEvent where
  | ok : RespEvent
  | raised : RespEvent
deriving DecidableEq, Repr

/-- The outcome of the drain loop shared by `test_sink_json` and
`test_sink_stream_chunk`: either the `for req in request_list` loop ran to
completion having consumed one response per request (`completed` carries
how many), or some `next(response_iter)` raised, the except-branch printed
the `Integration test failed` diagnostic and called `exit(1)` after
`okBefore` successful responses. -/
inductive DriveOutcome where
  | completed (responses : Nat) : DriveOutcome
  | printFailAndExit1 (okBefore : Nat) : DriveOutcome
deriving DecidableEq, Repr

/-- The drain loop: one `next(response_iter)` per request, in request
order; the first raise aborts the whole loop via `exit(1)`.  The response
iterator is modelled as the list of outcomes its successive `next` calls
would produce. -/
def sinkStreamDrain : List SinkStreamRequest → List RespEvent → DriveOutcome
  | [], _ => DriveOutcome.completed 0
  | _ :: reqs, RespEvent.ok :: resps =>
    match sinkStreamDrain reqs resps with
    | DriveOutcome.completed n => DriveOutcome.completed (n + 1)
    | DriveOutcome.printFailAndExit1 k => DriveOutcome.printFailAndExit1 (k + 1)
  | _ :: _, RespEvent.raised :: _ => DriveOutcome.printFailAndExit1 0
  | _ :: _, [] => DriveOutcome.printFailAndExit1 0

/-- The number of leading `ok` events of a response stream: the position of
the first `next` call that raises (or the stream length if none does). -/
def leadOk : List RespEvent → Nat
  | RespEvent.ok :: resps => leadOk resps + 1
  | _ => 0

/-- An observable step of the stream driver: `send r` is the submission of
request `r` into the `stub.SinkStream` call (the whole request list is
materialized and handed over, in order, before the drain loop starts);
`recv r` is the `next(response_iter)` consumed during the loop iteration
for request `r`; `abortExit1` is the failing `exit(1)` branch. -/
inductive DriverEvent where
  | send (r : SinkStreamRequest) : DriverEvent
  | recv (r : SinkStreamRequest) : DriverEvent
  | abortExit1 : DriverEvent
deriving DecidableEq, Repr

/-- The receive-phase events of the drain loop, pairing the i-th response
with the i-th request. -/
def recvEvents : List SinkStreamRequest → List RespEvent → List DriverEvent
  | [], _ => []
  | r :: reqs, RespEvent.ok :: resps => DriverEvent.recv r :: recvEvents reqs resps
  | _ :: _, RespEvent.raised :: _ => [DriverEvent.abortExit1]
  | _ :: _, [] => [DriverEvent.abortExit1]

/-- The full event trace of one `test_sink_*` run against a channel whose
response iterator behaves as `resps`: all requests are submitted first (the
`stub.SinkStream(iter(request_list))` call precedes the loop), then the
loop consumes responses. -/
def sinkStreamTrace (reqs : List SinkStreamRequest) (resps : List RespEvent) :
    List DriverEvent :=
  reqs.map DriverEvent.send ++ recvEvents reqs resps

/-- The result of `validate_jdbc_sink`'s comparison section: it either
falls through (no `exit(1)`), or prints one of the three `Integration test
failed` diagnostics and exits; each failing constructor carries exactly
what the corresponding `print` reports. -/
inductive ValidationResult where
  | passed : ValidationResult
  | rowCountMismatch (expectedRows gotRows : Nat) : ValidationResult
  | colCountMismatch (expectedCols gotCols : Nat) : ValidationResult
  | valueMismatch (rowIdx colIdx : Nat) (expectedVal gotVal : JsonVal) : ValidationResult
deriving DecidableEq, Repr

/-- The inner `for j in range(len(rows[i]))` loop: the first column index
`j` (counting from the `j` argument) where the store value differs from the
expected value, with the expected and got values; `none` when the row
matches.  Only invoked after the column counts were found equal. -/
def firstColMismatch (j : Nat) : List JsonVal → List JsonVal → Option (Nat × JsonVal × JsonVal)
  | [], _ => none
  | _, [] => none
  | a :: as, e :: es =>
    if a ≠ e then some (j, e, a) else firstColMismatch (j + 1) as es

/-- The outer `for i in range(len(rows))` loop of `validate_jdbc_sink`,
`i` being the current row index: per row, first the column-count check,
then the per-column value check; the first discrepancy exits. -/
def compareFrom (i : Nat) : List (List JsonVal) → List (List JsonVal) → ValidationResult
  | [], _ => ValidationResult.passed
  | _, [] => ValidationResult.passed
  | r :: rs, e :: es =>
    if r.length ≠ e.length then ValidationResult.colCountMismatch e.length r.length
    else
      match firstColMismatch 0 r e with
      | some (j, ev, av) => ValidationResult.valueMismatch i j ev av
      | none => compareFrom (i + 1) rs es

/-- The comparison section of `validate_jdbc_sink` (everything after
`expected` is computed): `rows` are the store's rows, `expected` the
fixture-derived tuples, both as value lists. -/
def validate_jdbc_sink_compare (rows expected : List (List JsonVal)) : ValidationResult :=
  if rows.length ≠ expected.length then
    ValidationResult.rowCountMismatch expected.length rows.length
  else compareFrom 0 rows expected

/-- `lambda item: (item[1]['id'], item[1]['name'])` from `convert` in
`validate_jdbc_sink`: `item` is `list(row.values())`, so `item[1]` is the
row's second value (its `line` object when keys arrive in fixture order);
`none` stands for a raised `IndexError`/`KeyError`/`TypeError`. -/
def convertItem (item : List JsonVal) : Option (JsonVal × JsonVal) :=
  match item[1]? with
  | some (JsonVal.obj kvs) =>
    match kvs.lookup "id", kvs.lookup "name" with
    | some i, some n => some (JsonVal.scalar i, JsonVal.scalar n)
    | _, _ => none
  | _ => none

/-- The `convert` list comprehension: one tuple per item, in order; any
item that raises aborts the whole comprehension. -/
def convertAll : List (List JsonVal) → Option (List (JsonVal × JsonVal))
  | [] => some []
  | item :: rest =>
    match convertItem item, convertAll rest with
    | some t, some ts => some (t :: ts)
    | _, _ => none

/-- The `expected` rows of `validate_jdbc_sink`, derived from the parsed
JSON fixture alone (the wire encoding of the session plays no part):
`[list(row.values()) for batch in load_input(input_file) for row in batch]`
followed by `convert`. -/
def expected_rows (fixture : List (List Row)) : Option (List (JsonVal × JsonVal)) :=
  convertAll (fixture.flatMap (fun batch => batch.map Row.values))

/-- `true` iff the `WriteBatch` payload is the JSON variant. -/
def WritePayload.isJson : WritePayload → Bool
  | .json_payload _ => true
  | .stream_chunk_payload _ => false

/-- `true` iff the `WriteBatch` payload is the stream-chunk variant. -/
def WritePayload.isChunk : WritePayload → Bool
  | .json_payload _ => false
  | .stream_chunk_payload _ => true

/-- The payloads of the `Write` messages of a session, in session order. -/
def writePayloads : List SinkStreamRequest → List WritePayload
  | [] => []
  | SinkStreamRequest.write _ _ p :: rest => p :: writePayloads rest
  | _ :: rest => writePayloads rest

/-- A two-batch JSON fixture (one row per batch) used by the concrete
witnesses. -/
def sampleJsonFixture : List (List Row) :=
  [[⟨[("op_type", JsonVal.scalar (JsonScalar.int 3)),
      ("line", JsonVal.scalar (JsonScalar.str "x"))]⟩],
   [⟨[("op_type", JsonVal.scalar (JsonScalar.int 4)),
      ("line", JsonVal.scalar (JsonScalar.str "y"))]⟩]]

/-- The request list `test_sink_json` builds from `sampleJsonFixture` with
`op_overlap = 1`. -/
def sampleJsonRequests : List SinkStreamRequest :=
  [SinkStreamRequest.start SinkPayloadFormat.JSON ⟨"jdbc", [], make_mock_schema⟩,
   SinkStreamRequest.start_epoch 0,
   SinkStreamRequest.write 1 0 (WritePayload.json_payload [⟨1, "x"⟩]),
   SinkStreamRequest.sync 0,
   SinkStreamRequest.start_epoch 1,
   SinkStreamRequest.write 2 1 (WritePayload.json_payload [⟨1, "y"⟩]),
   SinkStreamRequest.sync 1]

lemma leadOk_le_length (resps : List RespEvent) : leadOk resps ≤ resps.length := by
  induction resps with
  | nil => simp [leadOk]
  | cons ev rest ih =>
    cases ev with
    | ok => simpa [leadOk] using ih
    | raised => simp [leadOk]

lemma leadOk_le_of_raised (resps : List RespEvent) (i : Nat)
    (h : resps[i]? = some RespEvent.raised) : leadOk resps ≤ i := by
  induction resps generalizing i with
  | nil => simp at h
  | cons ev rest ih =>
    cases ev with
    | raised => simp [leadOk]
    | ok =>
      cases i with
      | zero => simp at h
      | succ j =>
        have := ih j (by simpa using h)
        simpa [leadOk] using Nat.succ_le_succ this

lemma sinkStreamDrain_fails (reqs : List SinkStreamRequest) (resps : List RespEvent)
    (h : leadOk resps < reqs.length) :
    sinkStreamDrain reqs resps = DriveOutcome.printFailAndExit1 (leadOk resps) := by
  induction reqs generalizing resps with
  | nil => simp at h
  | cons r rs ih =>
    cases resps with
    | nil => simp [sinkStreamDrain, leadOk]
    | cons ev rest =>
      cases ev with
      | raised => simp [sinkStreamDrain, leadOk]
      | ok =>
        have hlt : leadOk rest < rs.length := by
          simpa [leadOk, Nat.succ_lt_succ_iff] using h
        simp [sinkStreamDrain, leadOk, ih rest hlt]

lemma sinkStreamDrain_completes (reqs : List SinkStreamRequest) (resps : List RespEvent)
    (h : reqs.length ≤ leadOk resps) :
    sinkStreamDrain reqs resps = DriveOutcome.completed reqs.length := by
  induction reqs generalizing resps with
  | nil => simp [sinkStreamDrain]
  | cons r rs ih =>
    cases resps with
    | nil => simp [leadOk] at h
    | cons ev rest =>
      cases ev with
      | raised => simp [leadOk] at h
      | ok =>
        have hle : rs.length ≤ leadOk rest := by
          simpa [leadOk, Nat.succ_le_succ_iff] using h
        simp [sinkStreamDrain, ih rest hle]

lemma recvEvents_closed (reqs : List SinkStreamRequest) (resps : List RespEvent) :
    recvEvents reqs resps =
      (reqs.take (leadOk resps)).map DriverEvent.recv ++
        (if leadOk resps < reqs.length then [DriverEvent.abortExit1] else []) := by
  induction reqs generalizing resps with
  | nil => simp [recvEvents]
  | cons r rs ih =>
    cases resps with
    | nil => simp [recvEvents, leadOk]
    | cons ev rest =>
      cases ev with
      | raised => simp [recvEvents, leadOk]
      | ok => simp [recvEvents, leadOk, ih rest, Nat.succ_lt_succ_iff]

lemma flatMap_range_succ {α : Type} (f : Nat → List α) (n : Nat) :
    (List.range (n + 1)).flatMap f = f 0 ++ (List.range n).flatMap (fun i => f (i + 1)) := by
  rw [List.range_succ_eq_map]
  simp [List.flatMap_map]

lemma jsonBatchesToRequests_spec (ov : Int) (bs : List (List Row)) :
    ∀ (e b : Nat) (l : List SinkStreamRequest),
      jsonBatchesToRequests ov e b bs = some l →
      l = (List.range bs.length).flatMap (fun i =>
            [SinkStreamRequest.start_epoch (e + i),
             SinkStreamRequest.write (b + i) (e + i)
               (WritePayload.json_payload ((encodeRows ov (bs.getD i [])).getD [])),
             SinkStreamRequest.sync (e + i)]) := by
  induction bs with
  | nil =>
    intro e b l h
    simp [jsonBatchesToRequests] at h
    simp [h.symm]
  | cons batch rest ih =>
    intro e b l h
    cases hops : encodeRows ov batch with
    | none => rw [jsonBatchesToRequests, hops] at h; simp at h
    | some ops =>
      cases htail : jsonBatchesToRequests ov (e + 1) (b + 1) rest with
      | none => rw [jsonBatchesToRequests, hops, htail] at h; simp at h
      | some tail =>
        rw [jsonBatchesToRequests, hops, htail] at h
        simp only [Option.some.injEq] at h
        subst h
        have htail' := ih (e + 1) (b + 1) tail htail
        have hshift :
            (List.range rest.length).flatMap (fun i =>
              [SinkStreamRequest.start_epoch (e + 1 + i),
               SinkStreamRequest.write (b + 1 + i) (e + 1 + i)
                 (WritePayload.json_payload ((encodeRows ov (rest.getD i [])).getD [])),
               SinkStreamRequest.sync (e + 1 + i)]) =
            (List.range rest.length).flatMap (fun i =>
              [SinkStreamRequest.start_epoch (e + (i + 1)),
               SinkStreamRequest.write (b + (i + 1)) (e + (i + 1))
                 (WritePayload.json_payload
                   ((encodeRows ov ((batch :: rest).getD (i + 1) [])).getD [])),
               SinkStreamRequest.sync (e + (i + 1))]) := by
          congr 1
          funext i
          have h1 : e + 1 + i = e + (i + 1) := by omega
          have h2 : b + 1 + i = b + (i + 1) := by omega
          rw [h1, h2, List.getD_cons_succ]
        rw [List.length_cons, flatMap_range_succ, htail', hshift]
        simp only [Nat.add_zero, List.getD_cons_zero, hops, Option.getD_some,
          List.cons_append, List.nil_append]

lemma jsonBatchesToRequests_payloads (ov : Int) (bs : List (List Row)) :
    ∀ (e b : Nat) (l : List SinkStreamRequest),
      jsonBatchesToRequests ov e b bs = some l →
      ∀ p ∈ writePayloads l, p.isJson = true := by
  induction bs with
  | nil =>
    intro e b l h
    simp [jsonBatchesToRequests] at h
    subst h
    simp [writePayloads]
  | cons batch rest ih =>
    intro e b l h
    cases hops : encodeRows ov batch with
    | none => rw [jsonBatchesToRequests, hops] at h; simp at h
    | some ops =>
      cases htail : jsonBatchesToRequests ov (e + 1) (b + 1) rest with
      | none => rw [jsonBatchesToRequests, hops, htail] at h; simp at h
      | some tail =>
        rw [jsonBatchesToRequests, hops, htail] at h
        simp only [Option.some.injEq] at h
        subst h
        intro p hp
        simp only [writePayloads, List.mem_cons] at hp
        rcases hp with rfl | hp
        · rfl
        · exact ih (e + 1) (b + 1) tail htail p hp

/-- C1.  For every valid JSON fixture (one the builder accepts), the
request list is the single `Start` message followed, for each batch `i` in
fixture order, by exactly the triple `StartEpoch(i)`,
`Write(batch_id = i + 1, epoch = i, json payload of batch i)`, `Sync(i)`:
epochs are `0..n-1` with no gaps and batch_ids `1..n`, strictly
increasing. -/
theorem C1_json_session_shape (ty : String) (prop : List (String × String))
    (sink_input : List (List Row)) (op_overlap : Int) (reqs : List SinkStreamRequest)
    (h : test_sink_json_requests ty prop sink_input op_overlap = some reqs) :
    reqs = SinkStreamRequest.start SinkPayloadFormat.JSON ⟨ty, prop, make_mock_schema⟩ ::
      (List.range sink_input.length).flatMap (fun i =>
        [SinkStreamRequest.start_epoch i,
         SinkStreamRequest.write (i + 1) i
           (WritePayload.json_payload ((encodeRows op_overlap (sink_input.getD i [])).getD [])),
         SinkStreamRequest.sync i]) := by
  cases htail : jsonBatchesToRequests op_overlap 0 1 sink_input with
  | none => rw [test_sink_json_requests, htail] at h; simp at h
  | some tail =>
    rw [test_sink_json_requests, htail] at h
    simp only [Option.some.injEq] at h
    subst h
    rw [jsonBatchesToRequests_spec op_overlap sink_input 0 1 tail htail]
    simp only [Nat.zero_add, Nat.one_add]

/-- Witness for C1: the two-batch sample fixture produces exactly the
Start message plus two consecutive triples with epochs 0, 1 and batch_ids
1, 2. -/
theorem C1_json_session_shape_witness :
    test_sink_json_requests "jdbc" [] sampleJsonFixture 1 = some sampleJsonRequests ∧
    sampleJsonRequests =
      SinkStreamRequest.start SinkPayloadFormat.JSON ⟨"jdbc", [], make_mock_schema⟩ ::
        (List.range sampleJsonFixture.length).flatMap (fun i =>
          [SinkStreamRequest.start_epoch i,
           SinkStreamRequest.write (i + 1) i
             (WritePayload.json_payload ((encodeRows 1 (sampleJsonFixture.getD i [])).getD [])),
           SinkStreamRequest.sync i]) :=
  ⟨by decide, C1_json_session_shape "jdbc" [] sampleJsonFixture 1 sampleJsonRequests (by decide)⟩

/-- C4.  For every binary fixture of any size, `test_sink_stream_chunk`
builds exactly the Start message plus a single `StartEpoch(0)` /
`Write(batch_id = 1, epoch = 0)` / `Sync(0)` triple, and the single Write's
stream-chunk payload carries the fixture's bytes verbatim. -/
theorem C4_stream_chunk_single_triple (ty : String) (prop : List (String × String))
    (table_schema : TableSchema) (sink_input : List Nat) :
    test_sink_stream_chunk_requests ty prop table_schema sink_input =
      [SinkStreamRequest.start SinkPayloadFormat.STREAM_CHUNK ⟨ty, prop, table_schema⟩,
       SinkStreamRequest.start_epoch 0,
       SinkStreamRequest.write 1 0 (WritePayload.stream_chunk_payload sink_input),
       SinkStreamRequest.sync 0] ∧
    writePayloads (test_sink_stream_chunk_requests ty prop table_schema sink_input) =
      [WritePayload.stream_chunk_payload sink_input] :=
  ⟨rfl, rfl⟩

/-- C8.  The format tag of the `Start` message matches the payload kind of
every later `Write`: a JSON session's writes all carry a `json_payload`, a
STREAM_CHUNK session's writes all carry a `stream_chunk_payload`, and no
payload is both kinds at once (the proto `oneof`). -/
theorem C8_format_matches_payloads :
    (∀ (ty : String) (prop : List (String × String)) (sink_input : List (List Row))
        (op_overlap : Int) (reqs : List SinkStreamRequest),
      test_sink_json_requests ty prop sink_input op_overlap = some reqs →
      reqs.head? = some (SinkStreamRequest.start SinkPayloadFormat.JSON
          ⟨ty, prop, make_mock_schema⟩) ∧
        ∀ p ∈ writePayloads reqs, p.isJson = true) ∧
    (∀ (ty : String) (prop : List (String × String)) (table_schema : TableSchema)
        (sink_input : List Nat),
      (test_sink_stream_chunk_requests ty prop table_schema sink_input).head? =
        some (SinkStreamRequest.start SinkPayloadFormat.STREAM_CHUNK
          ⟨ty, prop, table_schema⟩) ∧
        ∀ p ∈ writePayloads (test_sink_stream_chunk_requests ty prop table_schema sink_input),
          p.isChunk = true) ∧
    (∀ p : WritePayload, ¬(p.isJson = true ∧ p.isChunk = true)) := by
  refine ⟨?_, ?_, ?_⟩
  · intro ty prop sink_input op_overlap reqs h
    cases htail : jsonBatchesToRequests op_overlap 0 1 sink_input with
    | none => rw [test_sink_json_requests, htail] at h; simp at h
    | some tail =>
      rw [test_sink_json_requests, htail] at h
      simp only [Option.some.injEq] at h
      subst h
      refine ⟨rfl, ?_⟩
      intro p hp
      simp only [writePayloads] at hp
      exact jsonBatchesToRequests_payloads op_overlap sink_input 0 1 tail htail p hp
  · intro ty prop table_schema sink_input
    refine ⟨rfl, ?_⟩
    intro p hp
    simp only [test_sink_stream_chunk_requests, writePayloads, List.cons_append,
      List.nil_append, List.mem_cons, List.not_mem_nil, or_false] at hp
    simp [hp, WritePayload.isChunk]
  · intro p
    cases p <;> simp [WritePayload.isJson, WritePayload.isChunk]

/-- Witness for C8: applied to the sample JSON session, the payload of its
first Write is of the JSON kind. -/
theorem C8_format_matches_payloads_witness :
    WritePayload.isJson (WritePayload.json_payload [⟨1, "x"⟩]) = true :=
  (C8_format_matches_payloads.1 "jdbc" [] sampleJsonFixture 1 sampleJsonRequests
      (by decide)).2
    (WritePayload.json_payload [⟨1, "x"⟩]) (by decide)

/-- C2.  If the response stream is shorter than the request list, or some
`next(response_iter)` raises (at a position the loop reaches), the drain
loop of `test_sink_json` / `test_sink_stream_chunk` takes the
except-branch: it prints the failure diagnostic and exits with code 1, and
it does so right at the first failed `next` — exactly the responses before
the first failure (`leadOk resps`, all successful) are consumed, so the
driver never retries and never continues past the first failed response. -/
theorem C2_drain_prints_and_exits (reqs : List SinkStreamRequest) (resps : List RespEvent)
    (h : resps.length < reqs.length ∨
         ∃ i, i < reqs.length ∧ resps[i]? = some RespEvent.raised) :
    sinkStreamDrain reqs resps = DriveOutcome.printFailAndExit1 (leadOk resps) ∧
      leadOk resps < reqs.length := by
  have hlt : leadOk resps < reqs.length := by
    rcases h with hshort | ⟨i, hi, hraised⟩
    · exact Nat.lt_of_le_of_lt (leadOk_le_length resps) hshort
    · exact Nat.lt_of_le_of_lt (leadOk_le_of_raised resps i hraised) hi
  exact ⟨sinkStreamDrain_fails reqs resps hlt, hlt⟩

/-- Witness for C2: one request, empty response stream — the driver prints
the diagnostic and exits 1 having consumed no response. -/
theorem C2_drain_prints_and_exits_witness :
    sinkStreamDrain [SinkStreamRequest.sync 0] [] = DriveOutcome.printFailAndExit1 0 ∧
      0 < 1 :=
  ⟨(C2_drain_prints_and_exits [SinkStreamRequest.sync 0] [] (Or.inl (by decide))).1,
   by decide⟩

/-- C7.  The driver's event trace: every request is submitted (in list
order) before any response is consumed, and the loop then consumes
responses one at a time, pairing the i-th response with the i-th request —
`reqs.take (leadOk resps)` are exactly the requests whose responses were
consumed, in send order, one response per request; if the responses run out
or raise before every request is answered, a single abort ends the trace. -/
theorem C7_trace_send_then_recv_in_order (reqs : List SinkStreamRequest)
    (resps : List RespEvent) :
    sinkStreamTrace reqs resps =
      reqs.map DriverEvent.send ++
        ((reqs.take (leadOk resps)).map DriverEvent.recv ++
          (if leadOk resps < reqs.length then [DriverEvent.abortExit1] else [])) := by
  simp [sinkStreamTrace, recvEvents_closed]

lemma opTypeOf_override {ov : Int} (r : Row) (hov : ov ≠ 0) :
    opTypeOf ov r = some ov := by
  simp [opTypeOf, hov]

lemma opTypeOf_zero {r : Row} {t : Int}
    (ht : r.lookupKey "op_type" = some (JsonVal.scalar (JsonScalar.int t))) :
    opTypeOf 0 r = some t := by
  simp [opTypeOf, ht]

lemma rowOpOf_eq {ov : Int} {r : Row} {t : Int} {l : JsonVal}
    (hty : opTypeOf ov r = some t) (hl : r.lookupKey "line" = some l) :
    rowOpOf ov r = some ⟨t, pyStr l⟩ := by
  simp [rowOpOf, hty, hl]

lemma rowOpOf_op_type {ov : Int} {r : Row} {op : RowOp}
    (h : rowOpOf ov r = some op) : opTypeOf ov r = some op.op_type := by
  obtain ⟨t, s⟩ := op
  cases hty : opTypeOf ov r with
  | none => simp [rowOpOf, hty] at h
  | some t' =>
    cases hl : r.lookupKey "line" with
    | none => simp [rowOpOf, hty, hl] at h
    | some l =>
      simp only [rowOpOf, hty, hl, Option.some.injEq, RowOp.mk.injEq] at h
      rw [h.1]

lemma rowOpOf_line {ov : Int} {r : Row} {op : RowOp} {l : JsonVal}
    (h : rowOpOf ov r = some op) (hl : r.lookupKey "line" = some l) :
    op.line = pyStr l := by
  obtain ⟨t, s⟩ := op
  cases hty : opTypeOf ov r with
  | none => simp [rowOpOf, hty] at h
  | some t' =>
    simp only [rowOpOf, hty, hl, Option.some.injEq, RowOp.mk.injEq] at h
    exact h.2.symm

lemma encodeRows_length (ov : Int) (rows : List Row) :
    ∀ ops : List RowOp, encodeRows ov rows = some ops → ops.length = rows.length := by
  induction rows with
  | nil =>
    intro ops h
    simp only [encodeRows, Option.some.injEq] at h
    subst h
    rfl
  | cons r0 rs ih =>
    intro ops h
    cases hro : rowOpOf ov r0 with
    | none => simp [encodeRows, hro] at h
    | some op0 =>
      cases hrest : encodeRows ov rs with
      | none => simp [encodeRows, hro, hrest] at h
      | some ops' =>
        simp only [encodeRows, hro, hrest, Option.some.injEq] at h
        subst h
        simp [ih ops' hrest]

lemma encodeRows_getElem (ov : Int) (rows : List Row) :
    ∀ ops : List RowOp, encodeRows ov rows = some ops →
      ∀ (i : Nat) (r : Row), rows[i]? = some r →
        ∃ op, ops[i]? = some op ∧ rowOpOf ov r = some op := by
  induction rows with
  | nil => intro ops h i r hi; simp at hi
  | cons r0 rs ih =>
    intro ops h i r hi
    cases hro : rowOpOf ov r0 with
    | none => simp [encodeRows, hro] at h
    | some op0 =>
      cases hrest : encodeRows ov rs with
      | none => simp [encodeRows, hro, hrest] at h
      | some ops' =>
        simp only [encodeRows, hro, hrest, Option.some.injEq] at h
        subst h
        cases i with
        | zero =>
          simp only [List.getElem?_cons_zero, Option.some.injEq] at hi
          subst hi
          exact ⟨op0, by simp, hro⟩
        | succ j =>
          have hj : rs[j]? = some r := by simpa using hi
          obtain ⟨op, hop, hro'⟩ := ih ops' hrest j r hj
          exact ⟨op, by simpa using hop, hro'⟩

lemma encodeRows_mem (ov : Int) (rows : List Row) :
    ∀ ops : List RowOp, encodeRows ov rows = some ops →
      ∀ op ∈ ops, ∃ r ∈ rows, rowOpOf ov r = some op := by
  induction rows with
  | nil =>
    intro ops h op hop
    simp only [encodeRows, Option.some.injEq] at h
    subst h
    simp at hop
  | cons r0 rs ih =>
    intro ops h op hop
    cases hro : rowOpOf ov r0 with
    | none => simp [encodeRows, hro] at h
    | some op0 =>
      cases hrest : encodeRows ov rs with
      | none => simp [encodeRows, hro, hrest] at h
      | some ops' =>
        simp only [encodeRows, hro, hrest, Option.some.injEq] at h
        subst h
        rcases List.mem_cons.mp hop with rfl | hop'
        · exact ⟨r0, List.mem_cons_self r0 rs, hro⟩
        · obtain ⟨r, hr, h'⟩ := ih ops' hrest op hop'
          exact ⟨r, List.mem_cons_of_mem r0 hr, h'⟩

/-- C3 counterexample.  With `op_overlap = False` (the integer 0 under
Python `==`, and the parameter's default), the emitted RowOp keeps the
row's own op_type 5 rather than being set to the supplied value: the claim
"every emitted RowOp's op_type equals op_overlap, for every caller-supplied
op_overlap value" fails at this input. -/
theorem C3_op_overlap_false_counterexample :
    encodeRows 0 [⟨[("op_type", JsonVal.scalar (JsonScalar.int 5)),
                    ("line", JsonVal.scalar (JsonScalar.str "x"))]⟩] =
      some [⟨5, "x"⟩] ∧ (RowOp.mk 5 "x").op_type ≠ (0 : Int) := by
  decide

/-- C3 (amended).  For every JSON fixture and every caller-supplied
op_overlap value **not equal to `False` under Python equality** (modelled:
`ov ≠ 0`), `test_sink_json` sets the op_type of every emitted RowOp to the
op_overlap value, regardless of each source row's own op_type field. -/
theorem C3_override_forces_op_type (ov : Int) (rows : List Row) (ops : List RowOp)
    (h : encodeRows ov rows = some ops) (hov : ov ≠ 0) :
    ∀ op ∈ ops, op.op_type = ov := by
  intro op hop
  obtain ⟨r, _, hr⟩ := encodeRows_mem ov rows ops h op hop
  have := rowOpOf_op_type hr
  rw [opTypeOf_override r hov] at this
  exact (Option.some.injEq _ _ ▸ this).symm

/-- Witness for the amended C3: override 1 applied to a row whose own
op_type is 5 yields op_type 1. -/
theorem C3_override_forces_op_type_witness :
    (RowOp.mk 1 "x").op_type = (1 : Int) :=
  C3_override_forces_op_type 1
    [⟨[("op_type", JsonVal.scalar (JsonScalar.int 5)),
       ("line", JsonVal.scalar (JsonScalar.str "x"))]⟩]
    [⟨1, "x"⟩] (by decide) (by decide) ⟨1, "x"⟩ (by decide)

/-- C9.  The override is applied exactly when `op_overlap != False` under
Python equality (`False == 0`, modelled by `ov = 0`): for `op_overlap`
equal to False or 0 every emitted RowOp keeps its row's own op_type, and
for any other value every emitted RowOp's op_type is the override. -/
theorem C9_override_guard_python_equality (ov : Int) (rows : List Row) (ops : List RowOp)
    (h : encodeRows ov rows = some ops) :
    (ov ≠ 0 → ∀ op ∈ ops, op.op_type = ov) ∧
    (ov = 0 → ∀ (i : Nat) (r : Row) (t : Int), rows[i]? = some r →
      r.lookupKey "op_type" = some (JsonVal.scalar (JsonScalar.int t)) →
      (ops[i]?).map RowOp.op_type = some t) := by
  constructor
  · intro hov op hop
    obtain ⟨r, _, hr⟩ := encodeRows_mem ov rows ops h op hop
    have := rowOpOf_op_type hr
    rw [opTypeOf_override r hov] at this
    exact (Option.some.injEq _ _ ▸ this).symm
  · rintro rfl i r t hi ht
    obtain ⟨op, hop, hro⟩ := encodeRows_getElem 0 rows ops h i r hi
    have := rowOpOf_op_type hro
    rw [opTypeOf_zero ht] at this
    rw [hop]
    simp [(Option.some.injEq _ _ ▸ this)]

/-- Witness for C9: with `op_overlap = 0` (Python `False`), the single
emitted RowOp keeps the row's own op_type 5. -/
theorem C9_override_guard_python_equality_witness :
    (([RowOp.mk 5 "x"] : List RowOp)[0]?).map RowOp.op_type = some (5 : Int) :=
  (C9_override_guard_python_equality 0
      [⟨[("op_type", JsonVal.scalar (JsonScalar.int 5)),
         ("line", JsonVal.scalar (JsonScalar.str "x"))]⟩]
      [⟨5, "x"⟩] (by decide)).2 rfl 0
    ⟨[("op_type", JsonVal.scalar (JsonScalar.int 5)),
      ("line", JsonVal.scalar (JsonScalar.str "x"))]⟩ 5 (by decide) (by decide)

/-- C10.  Every emitted RowOp's `line` is the Python `str()` rendering of
the row's `line` field (position i of the output pairs with row i, so
RowOps keep fixture row order), and `str()` of a JSON-object line differs
from its `json.dumps` re-serialization. -/
theorem C10_line_is_str_of_line_field (ov : Int) (rows : List Row) (ops : List RowOp)
    (h : encodeRows ov rows = some ops) :
    ops.length = rows.length ∧
    (∀ (i : Nat) (r : Row) (l : JsonVal), rows[i]? = some r →
      r.lookupKey "line" = some l → (ops[i]?).map RowOp.line = some (pyStr l)) ∧
    pyStr (JsonVal.obj [("id", JsonScalar.int 1), ("name", JsonScalar.str "a")]) ≠
      jsonDumps (JsonVal.obj [("id", JsonScalar.int 1), ("name", JsonScalar.str "a")]) := by
  refine ⟨encodeRows_length ov rows ops h, ?_, by decide⟩
  intro i r l hi hl
  obtain ⟨op, hop, hro⟩ := encodeRows_getElem ov rows ops h i r hi
  rw [hop]
  simp [rowOpOf_line hro hl]

/-- Witness for C10: a row whose line field is the string "x" yields a
RowOp whose line is exactly that string. -/
theorem C10_line_is_str_of_line_field_witness :
    (([RowOp.mk 1 "x"] : List RowOp)[0]?).map RowOp.line =
      some (pyStr (JsonVal.scalar (JsonScalar.str "x"))) :=
  (C10_line_is_str_of_line_field 1
      [⟨[("op_type", JsonVal.scalar (JsonScalar.int 5)),
         ("line", JsonVal.scalar (JsonScalar.str "x"))]⟩]
      [⟨1, "x"⟩] (by decide)).2.1 0
    ⟨[("op_type", JsonVal.scalar (JsonScalar.int 5)),
      ("line", JsonVal.scalar (JsonScalar.str "x"))]⟩
    (JsonVal.scalar (JsonScalar.str "x")) (by decide) (by decide)

lemma firstColMismatch_self (r : List JsonVal) : ∀ j : Nat, firstColMismatch j r r = none := by
  induction r with
  | nil => intro j; rfl
  | cons a as ih => intro j; simp [firstColMismatch, ih]

lemma firstColMismatch_none_eq : ∀ (r e : List JsonVal) (j : Nat),
    firstColMismatch j r e = none → r.length = e.length → r = e := by
  intro r
  induction r with
  | nil =>
    intro e j h hlen
    cases e with
    | nil => rfl
    | cons b bs => simp at hlen
  | cons a as ih =>
    intro e j h hlen
    cases e with
    | nil => simp at hlen
    | cons b bs =>
      by_cases hab : a = b
      · subst hab
        simp only [firstColMismatch, ne_eq, not_true_eq_false, if_false] at h
        have := ih bs (j + 1) h (by simpa using hlen)
        rw [this]
      · simp [firstColMismatch, hab] at h

lemma compareFrom_skip (i : Nat) (r : List JsonVal) (rs es : List (List JsonVal)) :
    compareFrom i (r :: rs) (r :: es) = compareFrom (i + 1) rs es := by
  simp [compareFrom, firstColMismatch_self]

lemma compareFrom_prefix : ∀ (k : Nat) (rows expected : List (List JsonVal)) (i0 : Nat),
    rows.take k = expected.take k →
    compareFrom i0 rows expected = compareFrom (i0 + k) (rows.drop k) (expected.drop k) := by
  intro k
  induction k with
  | zero => intro rows expected i0 _; simp
  | succ k ih =>
    intro rows expected i0 htake
    cases rows with
    | nil =>
      cases expected with
      | nil => simp [compareFrom]
      | cons e es => simp at htake
    | cons r rs =>
      cases expected with
      | nil => simp at htake
      | cons e es =>
        simp only [List.take_succ_cons, List.cons.injEq] at htake
        obtain ⟨rfl, htk⟩ := htake
        rw [List.drop_succ_cons, List.drop_succ_cons, compareFrom_skip, ih rs es (i0 + 1) htk]
        congr 1
        omega

lemma compareFrom_self : ∀ (rows : List (List JsonVal)) (i : Nat),
    compareFrom i rows rows = ValidationResult.passed := by
  intro rows
  induction rows with
  | nil => intro i; rfl
  | cons r rs ih => intro i; rw [compareFrom_skip]; exact ih (i + 1)

lemma compareFrom_passed : ∀ (rows expected : List (List JsonVal)) (i : Nat),
    compareFrom i rows expected = ValidationResult.passed →
    rows.length = expected.length → rows = expected := by
  intro rows
  induction rows with
  | nil =>
    intro expected i h hlen
    cases expected with
    | nil => rfl
    | cons e es => simp at hlen
  | cons r rs ih =>
    intro expected i h hlen
    cases expected with
    | nil => simp at hlen
    | cons e es =>
      by_cases hcl : r.length = e.length
      · rw [compareFrom] at h
        rw [if_neg (by simpa using hcl)] at h
        cases hfc : firstColMismatch 0 r e with
        | some v =>
          obtain ⟨j, ev, av⟩ := v
          rw [hfc] at h
          simp at h
        | none =>
          rw [hfc] at h
          have hre : r = e := firstColMismatch_none_eq r e 0 hfc hcl
          have := ih es (i + 1) h (by simpa using hlen)
          rw [hre, this]
      · rw [compareFrom, if_pos (by simpa using hcl)] at h
        simp at h

/-- C5 counterexample.  The claim gives column-count mismatches priority
over value mismatches ("otherwise, at the first row index whose column
count differs ... ; otherwise, at the first (row, column) position whose
values differ ...").  On this input the row counts agree and row 1 has a
column-count mismatch, yet the code reports the value mismatch it meets
first, in row 0 — the scan is row-by-row, not phase-by-phase. -/
theorem C5_phase_order_counterexample :
    ([[JsonVal.scalar (JsonScalar.int 1)],
      [JsonVal.scalar (JsonScalar.int 2), JsonVal.scalar (JsonScalar.int 3)]] :
        List (List JsonVal)).length =
      ([[JsonVal.scalar (JsonScalar.int 9)],
        [JsonVal.scalar (JsonScalar.int 2)]] : List (List JsonVal)).length ∧
    (([[JsonVal.scalar (JsonScalar.int 1)],
       [JsonVal.scalar (JsonScalar.int 2), JsonVal.scalar (JsonScalar.int 3)]] :
         List (List JsonVal)).getD 1 []).length ≠
      (([[JsonVal.scalar (JsonScalar.int 9)],
         [JsonVal.scalar (JsonScalar.int 2)]] : List (List JsonVal)).getD 1 []).length ∧
    validate_jdbc_sink_compare
        [[JsonVal.scalar (JsonScalar.int 1)],
         [JsonVal.scalar (JsonScalar.int 2), JsonVal.scalar (JsonScalar.int 3)]]
        [[JsonVal.scalar (JsonScalar.int 9)],
         [JsonVal.scalar (JsonScalar.int 2)]] =
      ValidationResult.valueMismatch 0 0 (JsonVal.scalar (JsonScalar.int 9))
        (JsonVal.scalar (JsonScalar.int 1)) ∧
    validate_jdbc_sink_compare
        [[JsonVal.scalar (JsonScalar.int 1)],
         [JsonVal.scalar (JsonScalar.int 2), JsonVal.scalar (JsonScalar.int 3)]]
        [[JsonVal.scalar (JsonScalar.int 9)],
         [JsonVal.scalar (JsonScalar.int 2)]] ≠
      ValidationResult.colCountMismatch 1 2 := by
  decide

/-- C5 (amended).  `validate_jdbc_sink` compares strictly, ordered,
index-by-index: a row-count mismatch is reported with both counts and
exits non-zero; otherwise rows are scanned in increasing index order and,
within each row, the column count is checked before the values, so the
first discrepancy in that scan order is reported: a column-count
discrepancy with both counts, a value discrepancy with row index, column
index, expected and actual value.  The comparison passes exactly on equal
row lists — no unordered or set-based comparison. -/
theorem C5_ordered_first_anomaly (rows expected : List (List JsonVal)) :
    (rows.length ≠ expected.length →
      validate_jdbc_sink_compare rows expected =
        ValidationResult.rowCountMismatch expected.length rows.length) ∧
    (validate_jdbc_sink_compare rows expected = ValidationResult.passed ↔ rows = expected) ∧
    (∀ (i : Nat) (r e : List JsonVal), rows.length = expected.length →
      rows.take i = expected.take i → rows[i]? = some r → expected[i]? = some e →
      (r.length ≠ e.length →
        validate_jdbc_sink_compare rows expected =
          ValidationResult.colCountMismatch e.length r.length) ∧
      (r.length = e.length → ∀ (j : Nat) (ev av : JsonVal),
        firstColMismatch 0 r e = some (j, ev, av) →
        validate_jdbc_sink_compare rows expected =
          ValidationResult.valueMismatch i j ev av)) := by
  refine ⟨?_, ⟨?_, ?_⟩, ?_⟩
  · intro hlen
    rw [validate_jdbc_sink_compare, if_pos hlen]
  · intro hp
    by_cases hlen : rows.length = expected.length
    · rw [validate_jdbc_sink_compare, if_neg (by simpa using hlen)] at hp
      exact compareFrom_passed rows expected 0 hp hlen
    · rw [validate_jdbc_sink_compare, if_pos hlen] at hp
      simp at hp
  · rintro rfl
    rw [validate_jdbc_sink_compare, if_neg (by simp)]
    exact compareFrom_self rows 0
  · intro i r e hlen htake hr he
    obtain ⟨hi, hri⟩ := List.getElem?_eq_some_iff.mp hr
    obtain ⟨hie, hei⟩ := List.getElem?_eq_some_iff.mp he
    have hdr : rows.drop i = r :: rows.drop (i + 1) := by
      rw [List.drop_eq_getElem_cons hi, hri]
    have hde : expected.drop i = e :: expected.drop (i + 1) := by
      rw [List.drop_eq_getElem_cons hie, hei]
    have hmain : validate_jdbc_sink_compare rows expected =
        compareFrom i (r :: rows.drop (i + 1)) (e :: expected.drop (i + 1)) := by
      rw [validate_jdbc_sink_compare, if_neg (by simpa using hlen),
        compareFrom_prefix i rows expected 0 htake, hdr, hde]
      simp
    constructor
    · intro hcl
      rw [hmain, compareFrom, if_pos hcl]
    · intro hcl j ev av hfc
      rw [hmain, compareFrom, if_neg (by simpa using hcl), hfc]

/-- Witness for the amended C5: one store row against an empty expected
list reports both row counts. -/
theorem C5_ordered_first_anomaly_witness :
    validate_jdbc_sink_compare [[JsonVal.scalar (JsonScalar.int 1)]] [] =
      ValidationResult.rowCountMismatch 0 1 :=
  (C5_ordered_first_anomaly [[JsonVal.scalar (JsonScalar.int 1)]] []).1 (by decide)

lemma convertAll_spec : ∀ (items : List (List JsonVal)) (l : List (JsonVal × JsonVal)),
    convertAll items = some l →
    l.length = items.length ∧
    ∀ (i : Nat) (it : List JsonVal), items[i]? = some it → l[i]? = convertItem it := by
  intro items
  induction items with
  | nil =>
    intro l h
    simp only [convertAll, Option.some.injEq] at h
    subst h
    exact ⟨rfl, by intro i it hi; simp at hi⟩
  | cons item rest ih =>
    intro l h
    cases hci : convertItem item with
    | none => simp [convertAll, hci] at h
    | some t =>
      cases hrest : convertAll rest with
      | none => simp [convertAll, hci, hrest] at h
      | some ts =>
        simp only [convertAll, hci, hrest, Option.some.injEq] at h
        subst h
        obtain ⟨hlen, hpt⟩ := ih ts hrest
        refine ⟨by simp [hlen], ?_⟩
        intro i it hi
        cases i with
        | zero =>
          simp only [List.getElem?_cons_zero, Option.some.injEq] at hi
          subst hi
          simp [hci]
        | succ j =>
          have hj : rest[j]? = some it := by simpa using hi
          simpa using hpt j it hj

lemma flatMap_values_eq_map_flatten (fixture : List (List Row)) :
    fixture.flatMap (fun batch => batch.map Row.values) =
      fixture.flatten.map Row.values := by
  induction fixture with
  | nil => rfl
  | cons b bs ih => simp [ih]

/-- C6.  The expected-row sequence of `validate_jdbc_sink` has exactly one
tuple per fixture row, batches flattened in fixture order: its length is
the flattened row count and its i-th tuple is determined by the i-th
flattened row alone.  `expected_rows` takes only the parsed fixture — the
wire encoding used to transmit the session (JSON or binary) plays no part
in the derivation. -/
theorem C6_expected_rows_one_tuple_per_row (fixture : List (List Row))
    (l : List (JsonVal × JsonVal)) (h : expected_rows fixture = some l) :
    l.length = fixture.flatten.length ∧
    ∀ (i : Nat) (r : Row), fixture.flatten[i]? = some r →
      l[i]? = convertItem (Row.values r) := by
  rw [expected_rows, flatMap_values_eq_map_flatten] at h
  obtain ⟨hlen, hpt⟩ := convertAll_spec _ l h
  refine ⟨by rw [hlen, List.length_map], ?_⟩
  intro i r hi
  exact hpt i (Row.values r) (by rw [List.getElem?_map, hi]; rfl)

/-- Witness for C6: a one-row jdbc fixture yields exactly one expected
tuple, `(1, "a")`, derived from that row. -/
theorem C6_expected_rows_one_tuple_per_row_witness :
    ([(JsonVal.scalar (JsonScalar.int 1), JsonVal.scalar (JsonScalar.str "a"))] :
        List (JsonVal × JsonVal))[0]? =
      convertItem (Row.values ⟨[("op_type", JsonVal.scalar (JsonScalar.int 1)),
        ("line", JsonVal.obj [("id", JsonScalar.int 1), ("name", JsonScalar.str "a")])]⟩) :=
  (C6_expected_rows_one_tuple_per_row
      [[⟨[("op_type", JsonVal.scalar (JsonScalar.int 1)),
          ("line", JsonVal.obj [("id", JsonScalar.int 1), ("name", JsonScalar.str "a")])]⟩]]
      [(JsonVal.scalar (JsonScalar.int 1), JsonVal.scalar (JsonScalar.str "a"))]
      (by decide)).2 0
    ⟨[("op_type", JsonVal.scalar (JsonScalar.int 1)),
      ("line", JsonVal.obj [("id", JsonScalar.int 1), ("name", JsonScalar.str "a")])]⟩
    (by decide)
